import Mathlib

/-!
# AS3 manager: configuration dispatch, equality and version gates

A shallow embedding of `as3/as3Manager.go`.

* Go strings are modelled as Lean strings, that is as sequences of Unicode
  characters (indices count characters; byte strings that are not valid UTF-8
  are outside the model).
* `float64` values are modelled by their exact binary value, and
  `strconv.ParseFloat`, `json.Unmarshal` into an `interface{}` and
  `reflect.DeepEqual` on the result by executable functions.
* The request channel, of capacity one, is an optional slot.  Time is not
  modelled: a `select` between a receive and a timer is given the case it takes.
* The collaborators that are not part of the file (the post manager, the schema
  validator, the JSON encoder of the configuration type, the timeout table) are
  the fields of an environment record.
-/

namespace As3

/-! ## `float64` values and `strconv.ParseFloat` -/

/-- A `float64` value.  A finite value is `(-1)^neg * mant * 2^exp`, kept in the
canonical form of binary64: `mant < 2^53`, and either `2^52 ≤ mant` (normal
numbers) or `exp = -1074` (subnormal numbers); zero is `mant = 0`, `exp = 0`. -/
inductive Float64
  | finite (neg : Bool) (mant : Nat) (exp : Int)
  | inf (neg : Bool)
  | nan
deriving DecidableEq, Repr

/-- Halving loop behind `log2`; the first argument bounds the number of halvings. -/
def log2Loop : Nat → Nat → Nat
  | 0, _ => 0
  | fuel + 1, n => if n < 2 then 0 else log2Loop fuel (n / 2) + 1

/-- Value of `⌊log₂ n⌋` for positive `n` (and `0` for `n = 0`). -/
def log2 (n : Nat) : Nat := log2Loop n n

/-- Value of `⌊log₂ (num / den)⌋` for positive `num` and `den`. -/
def floorLog2 (num den : Nat) : Int :=
  let e0 : Int := (log2 num : Int) - (log2 den : Int)
  if 0 ≤ e0 then
    if den * 2 ^ e0.toNat ≤ num then e0 else e0 - 1
  else
    if den ≤ num * 2 ^ (-e0).toNat then e0 else e0 - 1

/-- Round the non-negative rational `num / den` to the nearest binary64 value,
ties to even (IEEE 754 round-to-nearest-even).  The result is `none` when the
rounded value does not fit, that is when it is `2^1024` or more. -/
def roundFloat64 (neg : Bool) (num den : Nat) : Option Float64 :=
  if num = 0 then some (.finite neg 0 0)
  else
    let e := floorLog2 num den
    let p : Int := max (e - 52) (-1074)
    let n := if 0 ≤ p then num else num * 2 ^ (-p).toNat
    let d := if 0 ≤ p then den * 2 ^ p.toNat else den
    let q := n / d
    let r := n % d
    let m := if d < 2 * r ∨ (2 * r = d ∧ q % 2 = 1) then q + 1 else q
    if m = 0 then some (.finite neg 0 0)
    else
      let (m, p) := if m = 2 ^ 53 then (2 ^ 52, p + 1) else (m, p)
      if 971 < p then none else some (.finite neg m p)

/-- Comparison of magnitudes: `ma * 2^ea ≤ mb * 2^eb`, both sides scaled by the
smaller of the two exponents. -/
def Float64.magLe (ma : Nat) (ea : Int) (mb : Nat) (eb : Int) : Bool :=
  let m := min ea eb
  decide (ma * 2 ^ (ea - m).toNat ≤ mb * 2 ^ (eb - m).toNat)

/-- Go's `a >= b` on `float64`: false as soon as an operand is NaN; the two
zeros are equal. -/
def Float64.ge : Float64 → Float64 → Bool
  | .nan, _ => false
  | _, .nan => false
  | .inf false, _ => true
  | _, .inf true => true
  | .inf true, _ => false
  | _, .inf false => false
  | .finite na ma ea, .finite nb mb eb =>
    match na, nb with
    | false, false => Float64.magLe mb eb ma ea
    | false, true => true
    | true, false => decide (ma = 0 ∧ mb = 0)
    | true, true => Float64.magLe ma ea mb eb

/-- The two ways `strconv.ParseFloat` fails. -/
inductive NumError
  | ErrSyntax
  | ErrRange
deriving DecidableEq, Repr

/-- A Go result pair `(value, error)` of which exactly one part is meaningful. -/
inductive Result (ε α : Type)
  | ok (val : α)
  | error (err : ε)
deriving DecidableEq, Repr

/-- Go's `lower(c) = c | ('x' - 'X')` on a character code. -/
def lower (c : Char) : Nat := c.toNat ||| 0x20

/-- Decimal digit test, `'0' <= c && c <= '9'`. -/
def isDigit (c : Char) : Bool := 48 ≤ c.toNat && c.toNat ≤ 57

/-- Hexadecimal letter test, `'a' <= lower(c) && lower(c) <= 'f'`. -/
def isHexLetter (c : Char) : Bool := 97 ≤ lower c && lower c ≤ 102

/-- State of the mantissa loop of `readFloat`.  `mant` accumulates every
significant digit (the Go code keeps the first 19 and falls back to its exact
decimal conversion when digits were dropped; the value converted is the
same), `nd` counts the digits after the leading zeros and `dp` is the
position of the decimal point. -/
structure MantState where
  sawdot : Bool
  sawdigits : Bool
  underscores : Bool
  nd : Nat
  dp : Int
  mant : Nat
deriving DecidableEq, Repr

/-- The mantissa loop of `readFloat`: consumes digits, underscores and at most
one point, and returns the state together with the unread characters. -/
def readMantissa (hex : Bool) : List Char → MantState → MantState × List Char
  | [], st => (st, [])
  | c :: cs, st =>
    if c = '_' then readMantissa hex cs { st with underscores := true }
    else if c = '.' then
      if st.sawdot then (st, c :: cs)
      else readMantissa hex cs { st with sawdot := true, dp := st.nd }
    else if isDigit c then
      if c = '0' ∧ st.nd = 0 then
        readMantissa hex cs { st with sawdigits := true, dp := st.dp - 1 }
      else
        readMantissa hex cs { st with
          sawdigits := true, nd := st.nd + 1,
          mant := st.mant * (if hex then 16 else 10) + (c.toNat - 48) }
    else if hex ∧ isHexLetter c then
      readMantissa hex cs { st with
        sawdigits := true, nd := st.nd + 1, mant := st.mant * 16 + (lower c - 97 + 10) }
    else (st, c :: cs)

/-- The exponent digit loop of `readFloat`; the exponent stops growing once it
has reached 10000. -/
def readExpDigits : List Char → Nat → Bool → Nat × Bool × List Char
  | [], e, u => (e, u, [])
  | c :: cs, e, u =>
    if c = '_' then readExpDigits cs e true
    else if isDigit c then
      readExpDigits cs (if e < 10000 then e * 10 + (c.toNat - 48) else e) u
    else (e, u, c :: cs)

/-- Go's `underscoreOK` after the optional sign and base prefix: `saw` is the
class of the last character seen (`0` digit, `1` underscore, `2` other,
`3` beginning). -/
def underscoreScan (hex : Bool) : List Char → Nat → Bool
  | [], saw => saw ≠ 1
  | c :: cs, saw =>
    if isDigit c ∨ (hex ∧ isHexLetter c) then underscoreScan hex cs 0
    else if c = '_' then
      if saw ≠ 0 then false else underscoreScan hex cs 1
    else if saw = 1 then false
    else underscoreScan hex cs 2

/-- Go's `underscoreOK`: underscores must separate digits (a base prefix counts
as a digit). -/
def underscoreOK (s : List Char) : Bool :=
  let s := match s with
    | c :: cs => if c = '-' ∨ c = '+' then cs else c :: cs
    | [] => []
  match s with
  | c0 :: c1 :: cs =>
    if c0 = '0' ∧ (lower c1 = 98 ∨ lower c1 = 111 ∨ lower c1 = 120) then
      underscoreScan (lower c1 = 120) cs 0
    else underscoreScan false (c0 :: c1 :: cs) 3
  | cs => underscoreScan false cs 3

/-- What `readFloat` reads: sign, base, the digits as a number and the exponent
that goes with them (a power of ten, or of two for a hexadecimal literal). -/
structure FloatLit where
  neg : Bool
  hex : Bool
  mant : Nat
  exp : Int
deriving DecidableEq, Repr

/-- Go's `readFloat` on a whole string: `none` when the string is not a
floating-point literal from its first to its last character. -/
def readFloat (s : List Char) : Option FloatLit :=
  match s with
  | [] => none
  | c0 :: _ =>
    let neg := decide (c0 = '-')
    let s1 := if c0 = '+' ∨ c0 = '-' then s.tail else s
    let hex := match s1 with
      | a :: b :: _ :: _ => decide (a = '0' ∧ lower b = 120)
      | _ => false
    let s2 := if hex then s1.drop 2 else s1
    let (st, rest) := readMantissa hex s2 ⟨false, false, false, 0, 0, 0⟩
    if ¬ st.sawdigits then none
    else
      let dp0 : Int := if st.sawdot then st.dp else st.nd
      let dp1 : Int := if hex then dp0 * 4 else dp0
      let ndBits : Int := if hex then (st.nd : Int) * 4 else st.nd
      let expChar : Nat := if hex then 112 else 101
      let finish (dp : Int) (u : Bool) (rest : List Char) : Option FloatLit :=
        if rest ≠ [] then none
        else if u ∧ ¬ underscoreOK s then none
        else some ⟨neg, hex, st.mant, if st.mant ≠ 0 then dp - ndBits else 0⟩
      match rest with
      | c :: r1 =>
        if lower c = expChar then
          match r1 with
          | [] => none
          | d :: r2 =>
            let esign : Int := if d = '-' then -1 else 1
            let r3 := if d = '+' ∨ d = '-' then r2 else d :: r2
            match r3 with
            | [] => none
            | x :: _ =>
              if ¬ isDigit x then none
              else
                let (e, u, r4) := readExpDigits r3 0 st.underscores
                finish (dp1 + (e : Int) * esign) u r4
        else if hex then none
        else finish dp1 st.underscores rest
      | [] => if hex then none else finish dp1 st.underscores []

/-- ASCII upper-case letters folded to lower case, as `special` does. -/
def foldCase (c : Char) : Char :=
  if 65 ≤ c.toNat ∧ c.toNat ≤ 90 then Char.ofNat (c.toNat + 32) else c

/-- Go's `special` on a whole string: the spellings of infinity (optionally
signed) and of NaN (never signed), letter case ignored. -/
def special (s : List Char) : Option Float64 :=
  match s with
  | [] => none
  | c0 :: cs =>
    let body := if c0 = '+' ∨ c0 = '-' then cs else s
    let low := body.map foldCase
    if low = "inf".data ∨ low = "infinity".data then some (.inf (decide (c0 = '-')))
    else if s.map foldCase = "nan".data then some .nan
    else none

/-- Model of `strconv.ParseFloat(s, 64)`: the literal syntax accepted by Go
(decimal and hexadecimal literals, underscores between digits, the special
values), the value rounded to nearest even, a range error when the value
overflows. -/
def ParseFloat (s : String) : Result NumError Float64 :=
  match special s.data with
  | some f => .ok f
  | none =>
    match readFloat s.data with
    | none => .error .ErrSyntax
    | some lit =>
      let r :=
        if lit.hex then
          if 0 ≤ lit.exp then roundFloat64 lit.neg (lit.mant * 2 ^ lit.exp.toNat) 1
          else roundFloat64 lit.neg lit.mant (2 ^ (-lit.exp).toNat)
        else
          if 0 ≤ lit.exp then roundFloat64 lit.neg (lit.mant * 10 ^ lit.exp.toNat) 1
          else roundFloat64 lit.neg lit.mant (10 ^ (-lit.exp).toNat)
      match r with
      | some f => .ok f
      | none => .error .ErrRange

/-- The untyped constant `as3SupportedVersion = 3.20` as the `float64` it is
compared with: the binary64 value nearest to 3.2. -/
def as3SupportedVersion : Float64 := .finite false 7205759403792794 (-51)

/-! ## Strings -/

/-- Scan behind `LastIndex`: `i` is the current index and `last` the index of
the last match seen so far. -/
def lastIndexFrom (substr : List Char) : List Char → Nat → Int → Int
  | [], i, last => if substr = [] then (i : Int) else last
  | c :: cs, i, last =>
    lastIndexFrom substr cs (i + 1) (if substr.isPrefixOf (c :: cs) then (i : Int) else last)

/-- Go's `strings.LastIndex(s, substr)`: the index of the last instance of
`substr` in `s`, or `-1` when there is none. -/
def LastIndex (s substr : String) : Int :=
  lastIndexFrom substr.data s.data 0 (-1)

/-- Go's slice expression `s[:hi]`: `none` stands for the run-time panic
"slice bounds out of range", raised when `hi` is negative or beyond the end. -/
def sliceTo (s : String) (hi : Int) : Option String :=
  if hi < 0 ∨ (s.data.length : Int) < hi then none
  else some (String.mk (s.data.take hi.toNat))

/-! ## `encoding/json`: decoding a document into an untyped value -/

mutual
/-- The value `json.Unmarshal` stores in an `interface{}`: `nil`, `bool`,
`float64`, `string`, `[]interface{}` or `map[string]interface{}`.  A number is
the finite binary64 value `(-1)^neg * mant * 2^exp` in canonical form with the
sign of zero dropped (Go's `==` does not tell the two zeros apart); a map is
kept as its entries in increasing key order, one entry per key, so that two
maps are equal exactly when their entry lists are. -/
inductive JValue
  | null
  | bool (b : Bool)
  | num (neg : Bool) (mant : Nat) (exp : Int)
  | str (s : String)
  | arr (elems : JList)
  | obj (members : JObj)
deriving DecidableEq
/-- The elements of a decoded array, in order. -/
inductive JList
  | nil
  | cons (head : JValue) (tail : JList)
deriving DecidableEq
/-- The entries of a decoded object. -/
inductive JObj
  | nil
  | cons (key : String) (val : JValue) (tail : JObj)
deriving DecidableEq
end

/-- Lexicographic order on keys, by character code. -/
def keyLt : List Char → List Char → Bool
  | [], [] => false
  | [], _ :: _ => true
  | _ :: _, [] => false
  | a :: as, b :: bs => a.toNat < b.toNat || (a.toNat == b.toNat && keyLt as bs)

/-- The map assignment `m[key] = val`: a later value replaces an earlier one
under the same key. -/
def JObj.insert (key : String) (val : JValue) : JObj → JObj
  | .nil => .cons key val .nil
  | .cons k v tail =>
    if key = k then .cons key val tail
    else if keyLt key.data k.data then .cons key val (.cons k v tail)
    else .cons k v (JObj.insert key val tail)

/-- The array made of the given elements. -/
def JList.ofList : List JValue → JList
  | [] => .nil
  | v :: vs => .cons v (JList.ofList vs)

/-- Lexical elements of a JSON text. -/
inductive Token
  | beginObject
  | endObject
  | beginArray
  | endArray
  | colon
  | comma
  | string (s : String)
  | scalar (v : JValue)
deriving DecidableEq

/-- Drop the leading decimal digits. -/
def skipDigits : List Char → List Char
  | [] => []
  | c :: cs => if isDigit c then skipDigits cs else c :: cs

/-- Optional exponent part of a JSON number, up to the end of the token. -/
def validExp : List Char → Bool
  | [] => true
  | e :: r =>
    if e = 'e' ∨ e = 'E' then
      let r1 := match r with
        | c :: cs => if c = '+' ∨ c = '-' then cs else c :: cs
        | [] => []
      match r1 with
      | d :: ds => isDigit d && decide (skipDigits ds = [])
      | [] => false
    else false

/-- Optional fraction part of a JSON number, then the exponent part. -/
def validFrac : List Char → Bool
  | '.' :: d :: r => isDigit d && validExp (skipDigits r)
  | '.' :: [] => false
  | cs => validExp cs

/-- Integer part of a JSON number (a single `0`, or digits not starting with
`0`), then the rest. -/
def validInt : List Char → Bool
  | [] => false
  | c :: r =>
    if c = '0' then validFrac r
    else if isDigit c then validFrac (skipDigits r)
    else false

/-- The number grammar of the JSON scanner:
`-? (0 | [1-9][0-9]*) (. [0-9]+)? ([eE] [+-]? [0-9]+)?`. -/
def validNumber : List Char → Bool
  | '-' :: r => validInt r
  | cs => validInt cs

/-- The token spelled by a run of letters, digits, signs and points: one of the
three literals, or a number, converted as `convertNumber` does with
`strconv.ParseFloat`; a number out of the `float64` range is an error. -/
def wordToken (w : List Char) : Option Token :=
  if w = "true".data then some (.scalar (.bool true))
  else if w = "false".data then some (.scalar (.bool false))
  else if w = "null".data then some (.scalar .null)
  else if validNumber w then
    match ParseFloat (String.mk w) with
    | .ok (.finite neg mant exp) =>
      if mant = 0 then some (.scalar (.num false 0 0)) else some (.scalar (.num neg mant exp))
    | _ => none
  else none

/-- Characters that make up numbers and literals. -/
def isWordChar (c : Char) : Bool :=
  isDigit c || (97 ≤ c.toNat && c.toNat ≤ 122) || (65 ≤ c.toNat && c.toNat ≤ 90)
    || c = '-' || c = '+' || c = '.'

/-- JSON white space: space, tab, carriage return, line feed. -/
def isSpace (c : Char) : Bool :=
  c = ' ' || c = '\t' || c = '\r' || c = '\n'

/-- Where the lexer is: between tokens, inside a number or literal, inside a
string, after a backslash, or inside the four hexadecimal digits of `\u`.
`acc` holds the characters read so far, last first; `hi` is a leading
surrogate read from a `\u` escape and still waiting for its trailing one. -/
inductive LexMode
  | top
  | word (acc : List Char)
  | str (acc : List Char) (hi : Option Nat)
  | esc (acc : List Char) (hi : Option Nat)
  | uni (acc : List Char) (hi : Option Nat) (val : Nat) (n : Nat)

/-- The replacement character U+FFFD that stands for an unpaired surrogate. -/
def replacementChar : Char := Char.ofNat 0xFFFD

/-- An unpaired leading surrogate becomes the replacement character. -/
def flushHi (acc : List Char) (hi : Option Nat) : List Char :=
  match hi with
  | some _ => replacementChar :: acc
  | none => acc

/-- End of a `\uXXXX` escape of value `rr`, as `unquote` treats it: a leading
and a trailing surrogate combine into one character, any other surrogate
becomes the replacement character. -/
def endUnicode (acc : List Char) (hi : Option Nat) (rr : Nat) : LexMode :=
  match hi with
  | some h =>
    if 0xDC00 ≤ rr ∧ rr < 0xE000 then
      .str (Char.ofNat (0x10000 + (h - 0xD800) * 0x400 + (rr - 0xDC00)) :: acc) none
    else if 0xD800 ≤ rr ∧ rr < 0xDC00 then .str (replacementChar :: acc) (some rr)
    else .str (Char.ofNat rr :: replacementChar :: acc) none
  | none =>
    if 0xD800 ≤ rr ∧ rr < 0xDC00 then .str acc (some rr)
    else if 0xDC00 ≤ rr ∧ rr < 0xE000 then .str (replacementChar :: acc) none
    else .str (Char.ofNat rr :: acc) none

/-- Value of a hexadecimal digit. -/
def hexVal (c : Char) : Option Nat :=
  if isDigit c then some (c.toNat - 48)
  else if isHexLetter c then some (lower c - 97 + 10)
  else none

/-- The character a one-letter escape stands for. -/
def escapeChar (c : Char) : Option Char :=
  if c = '"' then some '"'
  else if c = '\\' then some '\\'
  else if c = '/' then some '/'
  else if c = 'b' then some (Char.ofNat 8)
  else if c = 'f' then some (Char.ofNat 12)
  else if c = 'n' then some '\n'
  else if c = 'r' then some '\r'
  else if c = 't' then some '\t'
  else none

/-- A character read between tokens. -/
def lexTop (c : Char) (out : List Token) : Option (LexMode × List Token) :=
  if isSpace c then some (.top, out)
  else if c = '{' then some (.top, .beginObject :: out)
  else if c = '}' then some (.top, .endObject :: out)
  else if c = '[' then some (.top, .beginArray :: out)
  else if c = ']' then some (.top, .endArray :: out)
  else if c = ':' then some (.top, .colon :: out)
  else if c = ',' then some (.top, .comma :: out)
  else if c = '"' then some (.str [] none, out)
  else if isWordChar c then some (.word [c], out)
  else none

/-- The lexer: reads the text one character at a time; `out` holds the tokens
read so far, last first.  `none` is a syntax or range error. -/
def lexFrom : List Char → LexMode → List Token → Option (List Token)
  | [], .top, out => some out.reverse
  | [], .word acc, out => (wordToken acc.reverse).map fun t => (t :: out).reverse
  | [], _, _ => none
  | c :: cs, .top, out =>
    match lexTop c out with
    | some (mode, out) => lexFrom cs mode out
    | none => none
  | c :: cs, .word acc, out =>
    if isWordChar c then lexFrom cs (.word (c :: acc)) out
    else
      match wordToken acc.reverse with
      | none => none
      | some t =>
        match lexTop c (t :: out) with
        | some (mode, out) => lexFrom cs mode out
        | none => none
  | c :: cs, .str acc hi, out =>
    if c = '"' then lexFrom cs .top (.string (String.mk (flushHi acc hi).reverse) :: out)
    else if c = '\\' then lexFrom cs (.esc acc hi) out
    else if c.toNat < 0x20 then none
    else lexFrom cs (.str (c :: flushHi acc hi) none) out
  | c :: cs, .esc acc hi, out =>
    if c = 'u' then lexFrom cs (.uni acc hi 0 0) out
    else
      match escapeChar c with
      | some e => lexFrom cs (.str (e :: flushHi acc hi) none) out
      | none => none
  | c :: cs, .uni acc hi val n, out =>
    match hexVal c with
    | none => none
    | some d =>
      if n = 3 then lexFrom cs (endUnicode acc hi (val * 16 + d)) out
      else lexFrom cs (.uni acc hi (val * 16 + d) (n + 1)) out

/-- An open array with its elements so far (last first), or an open object with
its entries so far and the key whose value is being read. -/
inductive Frame
  | arr (acc : List JValue)
  | obj (members : JObj) (key : String)

/-- What the grammar allows next. -/
inductive Expect
  | value
  | valueOrEnd
  | keyOrEnd
  | key
  | colon
  | sep
  | done (v : JValue)

/-- The nesting limit of the JSON scanner. -/
def maxNestingDepth : Nat := 10000

/-- A value is complete: it is the whole document, or the next element of the
enclosing array, or the value of the pending key of the enclosing object. -/
def complete (v : JValue) : List Frame → List Frame × Expect
  | [] => ([], .done v)
  | .arr acc :: rest => (.arr (v :: acc) :: rest, .sep)
  | .obj m k :: rest => (.obj (m.insert k v) k :: rest, .sep)

/-- One token of the grammar; `none` is a syntax error or a nesting that is too deep. -/
def parseStep (stack : List Frame) (st : Expect) (t : Token) : Option (List Frame × Expect) :=
  let startValue : Option (List Frame × Expect) :=
    match t with
    | .string s => some (complete (.str s) stack)
    | .scalar v => some (complete v stack)
    | .beginArray =>
      if stack.length + 1 ≤ maxNestingDepth then some (.arr [] :: stack, .valueOrEnd) else none
    | .beginObject =>
      if stack.length + 1 ≤ maxNestingDepth then some (.obj .nil "" :: stack, .keyOrEnd) else none
    | _ => none
  let readKey : Option (List Frame × Expect) :=
    match t, stack with
    | .string k, .obj m _ :: rest => some (.obj m k :: rest, .colon)
    | _, _ => none
  match st with
  | .value => startValue
  | .valueOrEnd =>
    match t, stack with
    | .endArray, .arr acc :: rest => some (complete (.arr (JList.ofList acc.reverse)) rest)
    | _, _ => startValue
  | .keyOrEnd =>
    match t, stack with
    | .endObject, .obj m _ :: rest => some (complete (.obj m) rest)
    | _, _ => readKey
  | .key => readKey
  | .colon =>
    match t with
    | .colon => some (stack, .value)
    | _ => none
  | .sep =>
    match t, stack with
    | .comma, .arr _ :: _ => some (stack, .value)
    | .comma, .obj _ _ :: _ => some (stack, .key)
    | .endArray, .arr acc :: rest => some (complete (.arr (JList.ofList acc.reverse)) rest)
    | .endObject, .obj m _ :: rest => some (complete (.obj m) rest)
    | _, _ => none
  | .done _ => none

/-- The grammar over a token list: exactly one value. -/
def parseTokens : List Token → List Frame → Expect → Option JValue
  | [], _, .done v => some v
  | [], _, _ => none
  | t :: ts, stack, st =>
    match parseStep stack st t with
    | some (stack, st) => parseTokens ts stack st
    | none => none

/-- Model of `json.Unmarshal([]byte(data), &o)` for `var o interface{}`: the
decoded value, or `none` when `Unmarshal` returns an error (a syntax error,
the empty input included, a nesting deeper than 10000, or a number out of the
`float64` range). -/
def Unmarshal (data : String) : Option JValue :=
  match lexFrom data.data .top [] with
  | some toks => parseTokens toks [] .value
  | none => none

/-- Model of `reflect.DeepEqual` on two decoded values. -/
def DeepEqual (o1 o2 : JValue) : Bool := decide (o1 = o2)

/-! ## Equality of two declarations -/

/-- The function `DeepEqualJSON`. -/
def DeepEqualJSON (decl1 decl2 : String) : Bool :=
  if decl1 = "" ∧ decl2 = "" then true
  else
    match Unmarshal decl1 with
    | none => false
    | some o1 =>
      match Unmarshal decl2 with
      | none => false
      | some o2 => DeepEqual o1 o2

/-! ## The manager and its collaborators -/

/-- The configuration carried through the queue.  The declaration of this type
is not part of the file; `JsonObj`, a string, is the only field the code
reads, and its zero value is the empty string. -/
structure AS3Config where
  JsonObj : String
deriving DecidableEq, Repr

/-- One call `postConfig(data, tenants)` received by the post manager. -/
structure PostCall where
  data : String
  tenants : List String
deriving DecidableEq, Repr

/-- The post manager as the file sees it: the configured delay between posts
and the calls to `postConfig` it has received so far, oldest first. -/
structure PostManager where
  AS3PostDelay : Nat
  calls : List PostCall
deriving DecidableEq, Repr

/-- The fields of `AS3Manager` that the code reads or writes.  `ReqChan` is the
channel of capacity one made by `Init`, before it is closed: the slot is either
empty or holds the one pending configuration. -/
structure AS3Manager where
  as3Validation : Bool
  as3ActiveConfig : AS3Config
  As3SchemaLatest : String
  PostManager : PostManager
  ReqChan : Option AS3Config
  as3Version : String
  as3Release : String
  unprocessableEntityStatus : Bool
deriving DecidableEq, Repr

/-- The fields of `Params` that `NewAS3Manager` copies into the fields above. -/
structure Params where
  AS3Validation : Bool
  AS3PostDelay : Nat
  As3Version : String
  As3Release : String
deriving DecidableEq, Repr

/-- The manager built by `NewAS3Manager` followed by `ReqChan = make(chan AS3Config, 1)`
of `Init`: every field that is not copied from the parameters has its zero
value, in particular the active configuration and the schema reference. -/
def NewAS3Manager (params : Params) : AS3Manager :=
  { as3Validation := params.AS3Validation
    as3ActiveConfig := ⟨""⟩
    As3SchemaLatest := ""
    PostManager := ⟨params.AS3PostDelay, []⟩
    ReqChan := none
    as3Version := params.As3Version
    as3Release := params.As3Release
    unprocessableEntityStatus := false }

/-- Errors returned by `IsBigIPAppServicesAvailable`. -/
inductive VersionError
  | query (msg : String)
  | parse (err : NumError)
  | unsupported (found : Float64)
deriving DecidableEq, Repr

/-- How a call of a function that returns `error` ends. -/
inductive Outcome (ε : Type)
  | returned (err : Option ε)
  | panicked
deriving DecidableEq, Repr

/-! ## Version compatibility check -/

/-- The method `IsBigIPAppServicesAvailable`; `reply` is what
`PostManager.GetBigipAS3Version()` returned: version, build and error. -/
def IsBigIPAppServicesAvailable (am : AS3Manager)
    (reply : String × String × Option String) : AS3Manager × Outcome VersionError :=
  let version := reply.1
  let build := reply.2.1
  let am := { am with as3Version := version, as3Release := version ++ "-" ++ build }
  match reply.2.2 with
  | some msg => (am, .returned (some (.query msg)))
  | none =>
    match sliceTo version (LastIndex version ".") with
    | none => (am, .panicked)
    | some versionstr =>
      match ParseFloat versionstr with
      | .error err => (am, .returned (some (.parse err)))
      | .ok bigIPVersion =>
        if bigIPVersion.ge as3SupportedVersion then (am, .returned none)
        else (am, .returned (some (.unsupported bigIPVersion)))

/-! ## The request queue -/

/-- A send on the open channel of capacity one that does not wait: `none` when
the slot is occupied (the send would block). -/
def chanSend (ch : Option AS3Config) (msg : AS3Config) : Option (Option AS3Config) :=
  match ch with
  | none => some (some msg)
  | some _ => none

/-- A receive on the open channel of capacity one that does not wait: `none`
when the slot is empty (the receive would block). -/
def chanRecv (ch : Option AS3Config) : Option (AS3Config × Option AS3Config) :=
  match ch with
  | some msg => some (msg, none)
  | none => none

/-- The method `Deploy` run by a producer while nobody else touches the queue:
the `select` takes the send when the slot is free, otherwise it takes the
receive, which empties the slot, and sends.  The result is the manager and the
returned error (always `nil`, here `none`); a result `none` would mean that the
call blocks. -/
def Deploy (am : AS3Manager) (req : AS3Config) : Option (AS3Manager × Option String) :=
  let msgReq := req
  match chanSend am.ReqChan msgReq with
  | some ch => some ({ am with ReqChan := ch }, none)
  | none =>
    match chanRecv am.ReqChan with
    | none => none
    | some (_, ch) =>
      match chanSend ch msgReq with
      | some ch => some ({ am with ReqChan := ch }, none)
      | none => none

/-- A sequential producer calling `Deploy` on each request in turn; the result
lists the errors returned, one per call. -/
def deployAll (am : AS3Manager) : List AS3Config → Option (AS3Manager × List (Option String))
  | [] => some (am, [])
  | req :: reqs =>
    match Deploy am req with
    | none => none
    | some (am, err) =>
      match deployAll am reqs with
      | none => none
      | some (am, errs) => some (am, err :: errs)

/-! ## Posting -/

/-- The collaborators that are not part of the file.  `postConfig calls call`
is the answer `(posted, event)` of the remote end to `call` when `calls` are
the calls it has received before; `validate schema template` tells whether
`gojsonschema.Validate` runs without error and finds the template valid;
`marshal` is `string(json.Marshal(cfg))`; the last two are the function and the
constant of the same names. -/
structure Env where
  postConfig : List PostCall → PostCall → Bool × String
  validate : String → String → Bool
  marshal : AS3Config → String
  getTimeDurationForErrorResponse : String → Nat
  responseStatusOk : String

/-- The call `am.PostManager.postConfig(data, tenants)`: the call is recorded
and answered by the remote end. -/
def PostManager.postConfig (env : Env) (pm : PostManager) (data : String)
    (tenants : List String) : PostManager × (Bool × String) :=
  ({ pm with calls := pm.calls ++ [⟨data, tenants⟩] },
    env.postConfig pm.calls ⟨data, tenants⟩)

/-- The method `validateAS3Template`: false when the validation fails to run or
finds errors. -/
def validateAS3Template (env : Env) (am : AS3Manager) (template : String) : Bool :=
  env.validate am.As3SchemaLatest template

/-- The method `postAS3Config`. -/
def postAS3Config (env : Env) (am : AS3Manager) (tempAS3Config : AS3Config) :
    AS3Manager × (Bool × String) :=
  let unifiedDecl := tempAS3Config.JsonObj
  if DeepEqualJSON am.as3ActiveConfig.JsonObj unifiedDecl then
    (am, (!am.unprocessableEntityStatus, ""))
  else if am.as3Validation = true ∧ validateAS3Template env am unifiedDecl = false then
    (am, (true, ""))
  else
    let tenants : List String := [] ++ [""]
    let r := PostManager.postConfig env am.PostManager unifiedDecl tenants
    ({ am with PostManager := r.1 }, r.2)

/-- The method `postAS3Declaration`. -/
def postAS3Declaration (env : Env) (am : AS3Manager) (as3Config : AS3Config) :
    AS3Manager × (Bool × String) :=
  postAS3Config env am as3Config

/-- The case a `select` between a receive on `ReqChan` and a timer takes. -/
inductive SelectCase
  | recv
  | timer
deriving DecidableEq, Repr

/-- The method `postOnEventOrTimeout`; `sel` is the case its `select` takes.
The receive can only be taken when a request is in the queue (`none`
otherwise). -/
def postOnEventOrTimeout (env : Env) (am : AS3Manager) (_timeout : Nat) (sel : SelectCase) :
    Option (AS3Manager × (Bool × String)) :=
  match sel with
  | .recv =>
    match chanRecv am.ReqChan with
    | some (msgReq, ch) => some (postAS3Declaration env { am with ReqChan := ch } msgReq)
    | none => none
  | .timer =>
    let tenants : List String := []
    let unifiedDeclaration := env.marshal am.as3ActiveConfig
    let r := PostManager.postConfig env am.PostManager unifiedDeclaration tenants
    some ({ am with PostManager := r.1 }, r.2)

/-! ## The deployer loop -/

/-- Where the goroutine of `ConfigDeployer` is parked: at the `range` over the
queue; at the `select` that looks for a fresher request, holding the request
`msgReq` it picked up (the post delay, when there is one, has elapsed); or
inside the `for !posted` loop, at the `select` of `postOnEventOrTimeout`. -/
inductive Phase
  | waiting
  | refresh (msgReq : AS3Config)
  | retrying (timeout : Nat)
deriving DecidableEq, Repr

/-- The manager together with the local state of `ConfigDeployer`. -/
structure Deployer where
  am : AS3Manager
  firstPost : Bool
  phase : Phase
deriving DecidableEq, Repr

/-- What happens around the deployer: a producer calls `Deploy`, or the
receive the deployer is parked at completes, or its timer fires. -/
inductive Sched
  | deploy (req : AS3Config)
  | recv
  | timer
deriving DecidableEq, Repr

/-- The part of the loop body after a post attempt returned `(posted, event)`:
either one more round of `for !posted`, or the end of the iteration. -/
def afterPost (env : Env) (firstPost : Bool) (r : AS3Manager × (Bool × String)) : Deployer :=
  let am := r.1
  let posted := r.2.1
  let event := r.2.2
  if posted = false then
    { am := { am with unprocessableEntityStatus := true }
      firstPost := firstPost
      phase := .retrying (env.getTimeDurationForErrorResponse event) }
  else
    { am := if event = env.responseStatusOk then
        { am with unprocessableEntityStatus := false } else am
      firstPost := false
      phase := .waiting }

/-- One step of the system; `none` when the step cannot happen (a receive on
an empty queue, a timer where none is running). -/
def step (env : Env) (d : Deployer) : Sched → Option Deployer
  | .deploy req =>
    match Deploy d.am req with
    | some (am, _) => some { d with am := am }
    | none => none
  | .recv =>
    match d.phase with
    | .waiting =>
      match chanRecv d.am.ReqChan with
      | some (msgReq, ch) =>
        some { d with am := { d.am with ReqChan := ch }, phase := .refresh msgReq }
      | none => none
    | .refresh _ =>
      match chanRecv d.am.ReqChan with
      | some (msgReq, ch) =>
        some (afterPost env d.firstPost (postAS3Declaration env { d.am with ReqChan := ch } msgReq))
      | none => none
    | .retrying timeout =>
      match postOnEventOrTimeout env d.am timeout .recv with
      | some r => some (afterPost env d.firstPost r)
      | none => none
  | .timer =>
    match d.phase with
    | .waiting => none
    | .refresh msgReq => some (afterPost env d.firstPost (postAS3Declaration env d.am msgReq))
    | .retrying timeout =>
      match postOnEventOrTimeout env d.am timeout .timer with
      | some r => some (afterPost env d.firstPost r)
      | none => none

/-- The steps of a schedule, one after the other. -/
def run (env : Env) (d : Deployer) : List Sched → Option Deployer
  | [] => some d
  | s :: rest =>
    match step env d s with
    | some d => run env d rest
    | none => none

/-- The method `ConfigDeployer` started on `am` and driven by a schedule. -/
def ConfigDeployer (env : Env) (am : AS3Manager) (sched : List Sched) : Option Deployer :=
  run env
    { am := { am with unprocessableEntityStatus := false }, firstPost := true, phase := .waiting }
    sched

/-- A sample environment for concrete runs: the remote end accepts every post
with the event `statusOK` when `accept` is set and refuses every post
otherwise, the schema validation answers `valid`, and the encoder wraps the
declaration of the configuration in an object. -/
def sampleEnv (accept valid : Bool) : Env :=
  { postConfig := fun _ _ =>
      if accept then (true, "statusOK") else (false, "statusServiceUnavailable")
    validate := fun _ _ => valid
    marshal := fun cfg => "\x7b\"JsonObj\":\"" ++ cfg.JsonObj ++ "\"\x7d"
    getTimeDurationForErrorResponse := fun _ => 30
    responseStatusOk := "statusOK" }

/-- A sample declaration. -/
def sampleDecl : AS3Config := ⟨"\x7b\"class\":\"AS3\"\x7d"⟩

/-- A second sample declaration. -/
def otherDecl : AS3Config := ⟨"\x7b\"class\":\"ADC\"\x7d"⟩

/-- The manager right after `Init` built it, schema validation switched off. -/
def freshManager : AS3Manager := NewAS3Manager ⟨false, 0, "", ""⟩

/-! ## Properties of the equality check -/

/-- The empty input is not a JSON document. -/
theorem Unmarshal_empty : Unmarshal "" = none := by decide

/-- The active configuration of a manager whose active declaration is empty is
only equal to the empty declaration. -/
theorem DeepEqualJSON_empty_left (decl : String) (h : decl ≠ "") :
    DeepEqualJSON "" decl = false := by
  unfold DeepEqualJSON
  have hne : ¬ (("" : String) = "" ∧ decl = "") := fun hh => h hh.2
  rw [if_neg hne, Unmarshal_empty]

/-- C9. Equality fails closed: when the two declarations are not both empty and
one of them does not parse as JSON, `DeepEqualJSON` answers false, whichever
side the malformed one is on. -/
theorem DeepEqualJSON_fail_closed (a b : String) (hne : ¬ (a = "" ∧ b = ""))
    (hbad : Unmarshal a = none ∨ Unmarshal b = none) : DeepEqualJSON a b = false := by
  unfold DeepEqualJSON
  rw [if_neg hne]
  rcases hbad with h | h
  · rw [h]
  · rw [h]
    cases Unmarshal a <;> rfl

/-- Witness for C9: a malformed declaration against a well-formed one, on either side. -/
theorem DeepEqualJSON_fail_closed_witness :
    (¬ (("[" : String) = "" ∧ ("[]" : String) = "") ∧ Unmarshal "[" = none)
      ∧ DeepEqualJSON "[" "[]" = false ∧ DeepEqualJSON "[]" "[" = false :=
  ⟨⟨by decide, by decide⟩,
    DeepEqualJSON_fail_closed "[" "[]" (by decide) (Or.inl (by decide)),
    DeepEqualJSON_fail_closed "[]" "[" (by decide) (Or.inr (by decide))⟩

/-- C8 as stated fails: a non-empty declaration that does not parse is not
equal to itself. -/
theorem DeepEqualJSON_not_reflexive : DeepEqualJSON "[" "[" = false := by decide

/-- C8, amended. Equality is reflexive on every declaration that is empty or
parses as JSON: `DeepEqualJSON d d` is true for these. -/
theorem DeepEqualJSON_refl (d : String) (h : d = "" ∨ (Unmarshal d).isSome = true) :
    DeepEqualJSON d d = true := by
  unfold DeepEqualJSON
  by_cases he : d = "" ∧ d = ""
  · rw [if_pos he]
  · rw [if_neg he]
    rcases h with h | h
    · exact absurd ⟨h, h⟩ he
    · cases hu : Unmarshal d with
      | none => rw [hu] at h; cases h
      | some o => simp [DeepEqual]

/-- Witness for C8, amended: the empty declaration and a JSON object. -/
theorem DeepEqualJSON_refl_witness :
    DeepEqualJSON "" "" = true
      ∧ (Unmarshal "\x7b\"class\":\"AS3\"\x7d").isSome = true
      ∧ DeepEqualJSON "\x7b\"class\":\"AS3\"\x7d" "\x7b\"class\":\"AS3\"\x7d" = true :=
  ⟨DeepEqualJSON_refl "" (Or.inl rfl), by decide,
    DeepEqualJSON_refl "\x7b\"class\":\"AS3\"\x7d" (Or.inr (by decide))⟩

/-! ## Properties of the version check -/

/-- The constant `3.20` is the value `strconv.ParseFloat` gives to `"3.20"`. -/
theorem as3SupportedVersion_eq : ParseFloat "3.20" = .ok as3SupportedVersion := by decide

/-- C6 as stated fails: for the version string `3.20.0-0.0.1` the check returns
an error, because the text before the last point, `3.20.0-0.0`, is not a
floating-point number. -/
theorem version_gate_rejects_long_version :
    (IsBigIPAppServicesAvailable freshManager ("3.20.0-0.0.1", "", none)).2
      = .returned (some (.parse .ErrSyntax)) := by decide

/-- The outcome of the check after a successful query depends on the version
string alone. -/
theorem IsBigIPAppServicesAvailable_outcome (am : AS3Manager) (version build : String) :
    (IsBigIPAppServicesAvailable am (version, build, none)).2 =
      match sliceTo version (LastIndex version ".") with
      | none => .panicked
      | some versionstr =>
        match ParseFloat versionstr with
        | .error err => .returned (some (.parse err))
        | .ok bigIPVersion =>
          if bigIPVersion.ge as3SupportedVersion then .returned none
          else .returned (some (.unsupported bigIPVersion)) := by
  simp only [IsBigIPAppServicesAvailable]
  split
  · rfl
  · split
    · rfl
    · split <;> rfl

/-- C6, amended. With the minimum supported version 3.20 and a successful
query, the check returns an error for both `3.19.1-0.0.1` and `3.20.0-0.0.1`
(the text before the last point does not parse); for the three-part versions
it returns an error for `3.19.1` (3.19 is below 3.20) and nil for `3.20.0`. -/
theorem version_gate (am : AS3Manager) (build : String) :
    (IsBigIPAppServicesAvailable am ("3.19.1-0.0.1", build, none)).2
        = .returned (some (.parse .ErrSyntax))
      ∧ (IsBigIPAppServicesAvailable am ("3.20.0-0.0.1", build, none)).2
        = .returned (some (.parse .ErrSyntax))
      ∧ (IsBigIPAppServicesAvailable am ("3.19.1", build, none)).2
        = .returned (some (.unsupported (.finite false 7183241405655941 (-51))))
      ∧ (IsBigIPAppServicesAvailable am ("3.20.0", build, none)).2 = .returned none := by
  simp only [IsBigIPAppServicesAvailable_outcome]
  decide

/-- C7 fails on the code: for a version string without a point (the empty
string, or `320`) returned by a successful query, the slice `version[:-1]`
panics instead of an error being returned. -/
theorem version_without_point_panics (am : AS3Manager) (build : String) :
    (IsBigIPAppServicesAvailable am ("", build, none)).2 = .panicked
      ∧ (IsBigIPAppServicesAvailable am ("320", build, none)).2 = .panicked := by
  simp only [IsBigIPAppServicesAvailable_outcome]
  decide

/-- A version string that spells infinity before its last point passes the
check: `strconv.ParseFloat` reads `Inf` as +Inf, which is above every
threshold. -/
theorem version_infinity_accepted (am : AS3Manager) (build : String) :
    (IsBigIPAppServicesAvailable am ("Inf.0", build, none)).2 = .returned none := by
  simp only [IsBigIPAppServicesAvailable_outcome]
  decide

/-! ## Properties of the request queue -/

/-- Whatever the slot holds, `Deploy` returns nil and leaves its request in the slot. -/
theorem Deploy_eq (am : AS3Manager) (req : AS3Config) :
    Deploy am req = some ({ am with ReqChan := some req }, none) := by
  unfold Deploy chanSend chanRecv
  cases am.ReqChan <;> rfl

/-- C3. Latest-wins submit: a sequential producer that calls `Deploy` on a
non-empty sequence of requests, with no pickup in between, gets nil from every
call, none of which blocks, and leaves exactly the last request in the slot. -/
theorem Deploy_latest_wins (am : AS3Manager) (reqs : List AS3Config) (h : reqs ≠ []) :
    deployAll am reqs
      = some ({ am with ReqChan := some (reqs.getLast h) }, List.replicate reqs.length none) := by
  induction reqs generalizing am with
  | nil => exact absurd rfl h
  | cons req rest ih =>
    cases rest with
    | nil => simp [deployAll, Deploy_eq]
    | cons r rs =>
      have ih2 := ih { am with ReqChan := some req } (List.cons_ne_nil r rs)
      simp only [deployAll, Deploy_eq] at ih2 ⊢
      rw [ih2]
      simp [List.replicate_succ]

/-- Witness for C3: after `d1, d2, d3` the slot holds `d3` only. -/
theorem Deploy_latest_wins_witness :
    [sampleDecl, otherDecl, ⟨"[]"⟩] ≠ []
      ∧ deployAll freshManager [sampleDecl, otherDecl, ⟨"[]"⟩]
        = some ({ freshManager with ReqChan := some ⟨"[]"⟩ }, [none, none, none]) :=
  ⟨by decide, Deploy_latest_wins freshManager [sampleDecl, otherDecl, ⟨"[]"⟩] (by decide)⟩

/-! ## Properties of posting -/

/-- The calls `postAS3Config` adds to those the post manager has received: none,
or one call carrying the declaration and the tenant list `[""]`. -/
theorem postAS3Config_calls (env : Env) (am : AS3Manager) (cfg : AS3Config) :
    (postAS3Config env am cfg).1.PostManager.calls = am.PostManager.calls
      ∨ (postAS3Config env am cfg).1.PostManager.calls
        = am.PostManager.calls ++ [⟨cfg.JsonObj, [""]⟩] := by
  by_cases h1 : DeepEqualJSON am.as3ActiveConfig.JsonObj cfg.JsonObj = true
  · exact Or.inl (by simp [postAS3Config, h1])
  · by_cases h2 : am.as3Validation = true ∧ validateAS3Template env am cfg.JsonObj = false
    · exact Or.inl (by simp [postAS3Config, h1, h2])
    · exact Or.inr (by simp [postAS3Config, h1, h2, PostManager.postConfig])

/-- C2 as stated fails: with the flag set and a declaration equal to the active
one, `postAS3Config` returns without any call to `postConfig`; shown on the
empty declaration against the empty active configuration and on a JSON object
against itself. -/
theorem sticky_flag_no_post :
    (DeepEqualJSON "" "" = true
        ∧ postAS3Config (sampleEnv true true)
            { freshManager with unprocessableEntityStatus := true } ⟨""⟩
          = ({ freshManager with unprocessableEntityStatus := true }, (false, "")))
      ∧ (DeepEqualJSON sampleDecl.JsonObj sampleDecl.JsonObj = true
        ∧ (postAS3Config (sampleEnv true true)
            { freshManager with as3ActiveConfig := sampleDecl, unprocessableEntityStatus := true }
            sampleDecl).1.PostManager.calls = []) := by
  decide

/-- C2, amended. With the flag set and a declaration deep-equal to the active
configuration, `postAS3Config` makes no call to `postConfig` and reports
`posted = false` with an empty event, which puts `ConfigDeployer` into its
retry cycle. -/
theorem sticky_flag_reports_not_posted (env : Env) (am : AS3Manager) (cfg : AS3Config)
    (hflag : am.unprocessableEntityStatus = true)
    (heq : DeepEqualJSON am.as3ActiveConfig.JsonObj cfg.JsonObj = true) :
    postAS3Config env am cfg = (am, (false, ""))
      ∧ ∀ firstPost, (afterPost env firstPost (postAS3Config env am cfg)).phase
          = .retrying (env.getTimeDurationForErrorResponse "") := by
  have h : postAS3Config env am cfg = (am, (false, "")) := by
    unfold postAS3Config
    simp [heq, hflag]
  refine ⟨h, fun firstPost => ?_⟩
  rw [h]
  rfl

/-- Witness for C2, amended: the flag is set and the declaration is the active one. -/
theorem sticky_flag_reports_not_posted_witness :
    DeepEqualJSON sampleDecl.JsonObj sampleDecl.JsonObj = true
      ∧ postAS3Config (sampleEnv true true)
          { freshManager with as3ActiveConfig := sampleDecl, unprocessableEntityStatus := true }
          sampleDecl
        = ({ freshManager with as3ActiveConfig := sampleDecl, unprocessableEntityStatus := true },
            (false, "")) :=
  ⟨by decide,
    (sticky_flag_reports_not_posted (sampleEnv true true)
      { freshManager with as3ActiveConfig := sampleDecl, unprocessableEntityStatus := true }
      sampleDecl rfl (by decide)).1⟩

/-- C10. Schema gate: for a declaration that is not deep-equal to the active
configuration, with validation enabled and the validator rejecting the
document, `postAS3Config` calls `postConfig` not at all and reports
`posted = true`; `ConfigDeployer`, parked with that declaration, goes back to
waiting without a retry, without a call, and without setting the flag. -/
theorem schema_gate (env : Env) (d : Deployer) (cfg : AS3Config)
    (hphase : d.phase = .refresh cfg)
    (hneq : DeepEqualJSON d.am.as3ActiveConfig.JsonObj cfg.JsonObj = false)
    (hval : d.am.as3Validation = true)
    (hinv : validateAS3Template env d.am cfg.JsonObj = false) :
    postAS3Config env d.am cfg = (d.am, (true, ""))
      ∧ ∃ d', step env d .timer = some d'
        ∧ d'.phase = .waiting
        ∧ d'.am.PostManager.calls = d.am.PostManager.calls
        ∧ (d'.am.unprocessableEntityStatus = true → d.am.unprocessableEntityStatus = true) := by
  have h : postAS3Config env d.am cfg = (d.am, (true, "")) := by
    unfold postAS3Config
    simp [hneq, hval, hinv]
  refine ⟨h, afterPost env d.firstPost (d.am, (true, "")), ?_, ?_, ?_, ?_⟩
  · simp [step, hphase, postAS3Declaration, h]
  · simp [afterPost]
  · by_cases hk : "" = env.responseStatusOk <;> simp [afterPost, hk]
  · by_cases hk : "" = env.responseStatusOk <;> simp [afterPost, hk]

/-- Witness for C10: a fresh manager with validation on and a rejecting validator. -/
theorem schema_gate_witness :
    (DeepEqualJSON "" sampleDecl.JsonObj = false
        ∧ (NewAS3Manager ⟨true, 0, "", ""⟩).as3Validation = true
        ∧ validateAS3Template (sampleEnv true false) (NewAS3Manager ⟨true, 0, "", ""⟩)
            sampleDecl.JsonObj = false)
      ∧ postAS3Config (sampleEnv true false) (NewAS3Manager ⟨true, 0, "", ""⟩) sampleDecl
        = (NewAS3Manager ⟨true, 0, "", ""⟩, (true, "")) :=
  ⟨⟨by decide, rfl, rfl⟩,
    (schema_gate (sampleEnv true false)
      ⟨NewAS3Manager ⟨true, 0, "", ""⟩, true, .refresh sampleDecl⟩ sampleDecl rfl
      (by decide) rfl rfl).1⟩

/-! ## Properties of the deployer loop -/

/-- C5. Pre-emption during the retry wait: when the deployer waits in its retry
cycle (after a failed post of `d1`) and a producer deploys `d2` before the
timer fires, `postOnEventOrTimeout` runs `postAS3Declaration` on `d2`; the
calls of that step are at most one call carrying the document of `d2`, never
the call of the timer branch for the active configuration, nor a call
carrying the document of `d1` when it differs from that of `d2`.  The post
for `d2` is really made: when `d2` is not deep-equal to the active
configuration and the schema gate is off or passes, the step calls
`postConfig` exactly once, with the document of `d2` and the tenants `[""]`,
and returns the answer of the remote end to that call; in the two other
cases (deep-equal, or rejected by the gate) the step makes no call. -/
theorem retry_preempted (env : Env) (d : Deployer) (timeout : Nat) (d1 d2 : AS3Config)
    (hphase : d.phase = .retrying timeout) :
    step env d (.deploy d2) = some { d with am := { d.am with ReqChan := some d2 } }
      ∧ postOnEventOrTimeout env { d.am with ReqChan := some d2 } timeout .recv
        = some (postAS3Declaration env { d.am with ReqChan := none } d2)
      ∧ run env d [.deploy d2, .recv]
        = some (afterPost env d.firstPost (postAS3Declaration env { d.am with ReqChan := none } d2))
      ∧ (∃ new, (postAS3Declaration env { d.am with ReqChan := none } d2).1.PostManager.calls
            = d.am.PostManager.calls ++ new
          ∧ (new = [] ∨ new = [⟨d2.JsonObj, [""]⟩])
          ∧ ⟨env.marshal d.am.as3ActiveConfig, []⟩ ∉ new
          ∧ (d1.JsonObj ≠ d2.JsonObj → ∀ c ∈ new, c.data ≠ d1.JsonObj))
      ∧ (DeepEqualJSON d.am.as3ActiveConfig.JsonObj d2.JsonObj = false →
          (d.am.as3Validation = false ∨ validateAS3Template env d.am d2.JsonObj = true) →
          (postAS3Declaration env { d.am with ReqChan := none } d2).1.PostManager.calls
              = d.am.PostManager.calls ++ [⟨d2.JsonObj, [""]⟩]
            ∧ (postAS3Declaration env { d.am with ReqChan := none } d2).2
              = env.postConfig d.am.PostManager.calls ⟨d2.JsonObj, [""]⟩
            ∧ ∃ d', run env d [.deploy d2, .recv] = some d'
              ∧ d'.am.PostManager.calls = d.am.PostManager.calls ++ [⟨d2.JsonObj, [""]⟩])
      ∧ (DeepEqualJSON d.am.as3ActiveConfig.JsonObj d2.JsonObj = true
            ∨ (d.am.as3Validation = true ∧ validateAS3Template env d.am d2.JsonObj = false) →
          (postAS3Declaration env { d.am with ReqChan := none } d2).1.PostManager.calls
            = d.am.PostManager.calls) := by
  have hrun : run env d [.deploy d2, .recv]
      = some (afterPost env d.firstPost
          (postAS3Declaration env { d.am with ReqChan := none } d2)) := by
    simp [run, step, Deploy_eq, hphase, postOnEventOrTimeout, chanRecv]
  refine ⟨?_, ?_, hrun, ?_, ?_, ?_⟩
  · simp [step, Deploy_eq]
  · simp [postOnEventOrTimeout, chanRecv]
  · rcases postAS3Config_calls env { d.am with ReqChan := none } d2 with h | h
    · refine ⟨[], ?_, Or.inl rfl, ?_, ?_⟩
      · simpa [postAS3Declaration] using h
      · simp
      · intro _ c hc
        cases hc
    · refine ⟨[⟨d2.JsonObj, [""]⟩], ?_, Or.inr rfl, ?_, ?_⟩
      · simpa [postAS3Declaration] using h
      · simp
      · intro hne c hc
        simp only [List.mem_singleton] at hc
        subst hc
        exact fun hh => hne hh.symm
  · intro hneq hgate
    have hg : ¬ (d.am.as3Validation = true
        ∧ validateAS3Template env { d.am with ReqChan := none } d2.JsonObj = false) := by
      rintro ⟨hv, hi⟩
      rcases hgate with hoff | hok
      · rw [hoff] at hv
        cases hv
      · have hi2 : validateAS3Template env d.am d2.JsonObj = false := hi
        rw [hok] at hi2
        cases hi2
    have hcalls : (postAS3Declaration env { d.am with ReqChan := none } d2).1.PostManager.calls
        = d.am.PostManager.calls ++ [⟨d2.JsonObj, [""]⟩] := by
      simp [postAS3Declaration, postAS3Config, hneq, hg, PostManager.postConfig]
    have hres : (postAS3Declaration env { d.am with ReqChan := none } d2).2
        = env.postConfig d.am.PostManager.calls ⟨d2.JsonObj, [""]⟩ := by
      simp [postAS3Declaration, postAS3Config, hneq, hg, PostManager.postConfig]
    refine ⟨hcalls, hres, _, hrun, ?_⟩
    have hkeep : ∀ (fp : Bool) (r : AS3Manager × (Bool × String)),
        (afterPost env fp r).am.PostManager.calls = r.1.PostManager.calls := by
      intro fp r
      unfold afterPost
      by_cases h1 : r.2.1 = false
      · simp [h1]
      · by_cases h2 : r.2.2 = env.responseStatusOk <;> simp [h1, h2]
    rw [hkeep, hcalls]
  · intro hcase
    have key : ∀ am : AS3Manager,
        (DeepEqualJSON am.as3ActiveConfig.JsonObj d2.JsonObj = true
          ∨ (am.as3Validation = true ∧ validateAS3Template env am d2.JsonObj = false)) →
        (postAS3Config env am d2).1.PostManager.calls = am.PostManager.calls := by
      intro am h
      by_cases h1 : DeepEqualJSON am.as3ActiveConfig.JsonObj d2.JsonObj = true
      · simp [postAS3Config, h1]
      · have h2 := h.resolve_left h1
        simp [postAS3Config, h1, h2]
    exact key { d.am with ReqChan := none } hcase

/-- Witness for C5: a deployer in its retry wait, then `Deploy` of a new request,
which differs from the active configuration and passes the gate: the step
posts exactly that request. -/
theorem retry_preempted_witness :
    run (sampleEnv false true)
        ⟨{ freshManager with unprocessableEntityStatus := true }, true, .retrying 30⟩
        [.deploy otherDecl, .recv]
      = some (afterPost (sampleEnv false true) true
          (postAS3Declaration (sampleEnv false true)
            { freshManager with unprocessableEntityStatus := true } otherDecl))
    ∧ DeepEqualJSON "" otherDecl.JsonObj = false
    ∧ (postAS3Declaration (sampleEnv false true)
          { freshManager with unprocessableEntityStatus := true } otherDecl).1.PostManager.calls
        = [⟨otherDecl.JsonObj, [""]⟩] :=
  ⟨(retry_preempted (sampleEnv false true)
      ⟨{ freshManager with unprocessableEntityStatus := true }, true, .retrying 30⟩
      30 sampleDecl otherDecl rfl).2.2.1,
    by decide,
    ((retry_preempted (sampleEnv false true)
      ⟨{ freshManager with unprocessableEntityStatus := true }, true, .retrying 30⟩
      30 sampleDecl otherDecl rfl).2.2.2.2.1 (by decide) (Or.inl rfl)).1⟩

/-- No post attempt changes the active configuration. -/
theorem postAS3Config_active (env : Env) (am : AS3Manager) (cfg : AS3Config) :
    (postAS3Config env am cfg).1.as3ActiveConfig = am.as3ActiveConfig := by
  by_cases h1 : DeepEqualJSON am.as3ActiveConfig.JsonObj cfg.JsonObj = true
  · simp [postAS3Config, h1]
  · by_cases h2 : am.as3Validation = true ∧ validateAS3Template env am cfg.JsonObj = false
    · simp [postAS3Config, h1, h2]
    · simp [postAS3Config, h1, h2]

/-- The end of a post attempt does not change the active configuration. -/
theorem afterPost_active (env : Env) (firstPost : Bool) (r : AS3Manager × (Bool × String)) :
    (afterPost env firstPost r).am.as3ActiveConfig = r.1.as3ActiveConfig := by
  unfold afterPost
  by_cases h1 : r.2.1 = false
  · simp [h1]
  · by_cases h2 : r.2.2 = env.responseStatusOk <;> simp [h1, h2]

/-- No step of the system changes the active configuration: nothing in the
file assigns `as3ActiveConfig`. -/
theorem step_active (env : Env) (d d' : Deployer) (s : Sched) (h : step env d s = some d') :
    d'.am.as3ActiveConfig = d.am.as3ActiveConfig := by
  cases s with
  | deploy req =>
    simp only [step, Deploy_eq, Option.some.injEq] at h
    subst h
    rfl
  | recv =>
    unfold step at h
    cases hp : d.phase with
    | waiting =>
      cases hc : d.am.ReqChan with
      | none => simp [hp, hc, chanRecv] at h
      | some msg =>
        simp only [hp, hc, chanRecv, Option.some.injEq] at h
        subst h
        rfl
    | refresh m =>
      cases hc : d.am.ReqChan with
      | none => simp [hp, hc, chanRecv] at h
      | some msg =>
        simp only [hp, hc, chanRecv, Option.some.injEq] at h
        subst h
        rw [afterPost_active]
        exact postAS3Config_active env _ msg
    | retrying t =>
      cases hc : d.am.ReqChan with
      | none => simp [hp, hc, chanRecv, postOnEventOrTimeout] at h
      | some msg =>
        simp only [hp, hc, chanRecv, postOnEventOrTimeout, Option.some.injEq] at h
        subst h
        rw [afterPost_active]
        exact postAS3Config_active env _ msg
  | timer =>
    unfold step at h
    cases hp : d.phase with
    | waiting => simp [hp] at h
    | refresh m =>
      simp only [hp, Option.some.injEq] at h
      subst h
      rw [afterPost_active]
      exact postAS3Config_active env _ m
    | retrying t =>
      simp only [hp, postOnEventOrTimeout, Option.some.injEq] at h
      subst h
      rw [afterPost_active]

/-- Along every schedule the active configuration stays what it was. -/
theorem run_active (env : Env) (sched : List Sched) (d d' : Deployer)
    (h : run env d sched = some d') : d'.am.as3ActiveConfig = d.am.as3ActiveConfig := by
  induction sched generalizing d with
  | nil =>
    simp only [run, Option.some.injEq] at h
    subst h
    rfl
  | cons s rest ih =>
    unfold run at h
    cases hs : step env d s with
    | none => simp [hs] at h
    | some d1 =>
      simp only [hs] at h
      rw [ih d1 h, step_active env d d1 s hs]

/-- C1 fails on the code: a fresh deployer with validation off and a remote end
that accepts every post with the ok event processes the same declaration
twice and calls `postConfig` twice. -/
theorem unchanged_declaration_posted_twice :
    (Unmarshal sampleDecl.JsonObj).isSome = true ∧
    (ConfigDeployer (sampleEnv true true) freshManager
        [.deploy sampleDecl, .recv, .timer, .deploy sampleDecl, .recv, .timer]).map
        (fun d => (d.am.PostManager.calls, d.am.as3ActiveConfig, d.phase))
      = some ([⟨sampleDecl.JsonObj, [""]⟩, ⟨sampleDecl.JsonObj, [""]⟩], ⟨""⟩, .waiting) :=
  by decide

/-- The timer branch of `postOnEventOrTimeout` posts the encoded active
configuration with no tenants. -/
theorem postOnEventOrTimeout_timer (env : Env) (am : AS3Manager) (timeout : Nat) :
    postOnEventOrTimeout env am timeout .timer
      = some ({ am with PostManager :=
            { am.PostManager with
              calls := am.PostManager.calls ++ [⟨env.marshal am.as3ActiveConfig, []⟩] } },
          env.postConfig am.PostManager.calls ⟨env.marshal am.as3ActiveConfig, []⟩) := rfl

/-- C4 fails on the code: after the post of a declaration failed, each retry on
timeout posts the encoding of the active configuration, which is still the
zero value, whatever the encoder: the same document for two different
declarations, and not the declaration that failed. -/
theorem retry_posts_zero_config (marshal : AS3Config → String) :
    (ConfigDeployer { sampleEnv false true with marshal := marshal } freshManager
        [.deploy sampleDecl, .recv, .timer, .timer, .timer]).map
        (fun d => d.am.PostManager.calls)
      = some [⟨sampleDecl.JsonObj, [""]⟩, ⟨marshal ⟨""⟩, []⟩, ⟨marshal ⟨""⟩, []⟩]
    ∧ (ConfigDeployer { sampleEnv false true with marshal := marshal } freshManager
        [.deploy otherDecl, .recv, .timer, .timer, .timer]).map
        (fun d => d.am.PostManager.calls)
      = some [⟨otherDecl.JsonObj, [""]⟩, ⟨marshal ⟨""⟩, []⟩, ⟨marshal ⟨""⟩, []⟩] := by
  have h1 : DeepEqualJSON "" sampleDecl.JsonObj = false := by decide
  have h2 : DeepEqualJSON "" otherDecl.JsonObj = false := by decide
  constructor
  · simp [ConfigDeployer, run, step, Deploy_eq, chanRecv, postAS3Declaration, postAS3Config,
      freshManager, NewAS3Manager, h1, afterPost, sampleEnv, PostManager.postConfig,
      postOnEventOrTimeout]
  · simp [ConfigDeployer, run, step, Deploy_eq, chanRecv, postAS3Declaration, postAS3Config,
      freshManager, NewAS3Manager, h2, afterPost, sampleEnv, PostManager.postConfig,
      postOnEventOrTimeout]

end As3
